import Mathlib

/-!
Verification development for the APA-7 citation/reference engine
(`backend/app/services/apa_service.py`).

Embedding conventions:

* Python strings are modelled by Lean `String` restricted to ASCII text
  (all character classes used by the service's regular expressions are
  ASCII literal classes; Python's unicode-aware `\w`, `\s`, `\d`,
  `str.lower` agree with the ASCII model on ASCII input).
* The service takes loosely-typed `dict` inputs.  `ParsedRef` models a
  Python dict in which the keys produced by `parse_reference_text` and by
  the API schema `ParsedReference.dict()` (authors, year, title, source,
  type, doi, url, publisher, volume, issue, pages, citation_key) are
  always present, with `None` encoded as `Option.none` / `PyYear.null`.
  The extra keys that the formatters probe but that those producers never
  emit (location, site_name, retrieved_date, editors, book_title,
  chapter_title, journal) are modelled as `Option`/`List` fields whose
  `none`/`[]` value stands for "key missing from the dict".
* The `year` field is three-valued (`PyYear`) because
  `ref.get("year", "n.d.")` distinguishes a missing key (default
  `"n.d."` fires) from a key present with value `None` (the default does
  not fire and `None` is falsy).
* `datetime.now().strftime("%B %d, %Y")` in `_format_web_reference` is
  modelled by an explicit `now : String` argument threaded through
  `generate_reference` and `generate_reference_list`.
-/

/-- Python `\s` on ASCII text: space, tab, newline, carriage return,
vertical tab, form feed. -/
def isPySpace (c : Char) : Bool :=
  c = ' ' || c = '\t' || c = '\n' || c = '\r' || c = Char.ofNat 11 || c = Char.ofNat 12

/-- Python `\w` on ASCII text: letters, digits and underscore. -/
def isWordChar (c : Char) : Bool :=
  c.isAlphanum || c = '_'

/-- Python `sep.join(xs)`. -/
def pyJoin (sep : String) : List String → String
  | [] => ""
  | [x] => x
  | x :: y :: t => x ++ sep ++ pyJoin sep (y :: t)

/-- Python `str.lower()` (ASCII). -/
def pyLower (s : String) : String :=
  String.mk (s.data.map Char.toLower)

/-- Python `str.strip()` on a character list. -/
def pyStripChars (l : List Char) : List Char :=
  ((l.dropWhile isPySpace).reverse.dropWhile isPySpace).reverse

/-- Python `str.strip()`. -/
def pyStrip (s : String) : String :=
  String.mk (pyStripChars s.data)

/-- Split a character list at every separator character (keeping empty
chunks), accumulating the current chunk in reverse. -/
def splitOnCharAux (sepc : Char) (acc : List Char) : List Char → List (List Char)
  | [] => [acc.reverse]
  | c :: t =>
    if c = sepc then acc.reverse :: splitOnCharAux sepc [] t
    else splitOnCharAux sepc (c :: acc) t

/-- Python `s.split(",")`. -/
def pySplitOnComma (s : String) : List String :=
  (splitOnCharAux ',' [] s.data).map String.mk

/-- Split a character list at every whitespace character (keeping empty
chunks). -/
def splitWsAux (acc : List Char) : List Char → List (List Char)
  | [] => [acc.reverse]
  | c :: t =>
    if isPySpace c then acc.reverse :: splitWsAux [] t
    else splitWsAux (c :: acc) t

/-- Python `str.split()` (split on whitespace runs, dropping empties). -/
def pySplitWs (s : String) : List String :=
  ((splitWsAux [] s.data).map String.mk).filter (fun t => t ≠ "")

/-- Python `dict.get(key, "")` for a field whose stored value is a string
(`none` stands for a missing key; producers never store `None` in these
fields). -/
def pyGetStr : Option String → String
  | some s => s
  | none => ""

/-- The three states of the `"year"` entry of a reference dict: key
missing, key present with `None`, key present with an int. -/
inductive PyYear where
  | absent
  | null
  | val (y : Int)
  deriving DecidableEq

/-- Python `ref.get("year")`: a missing key and a `None` value are both
`None`. -/
def cYear : PyYear → Option Int
  | PyYear.val v => some v
  | _ => none

/-- Python truthiness of an optional int (`None` and `0` are falsy). -/
def pyTruthyYear : Option Int → Bool
  | some v => v != 0
  | none => false

/-- Python `f"{year}"` for an optional int (the `none` arm mirrors
Python's rendering of `None`; it is unreachable behind truthiness
guards). -/
def optIntStr : Option Int → String
  | some v => toString v
  | none => "None"

/-- The parsed-reference record: a Python dict as produced by
`parse_reference_text` or the API schema (see the header comment). -/
structure ParsedRef where
  authors : List String := []
  year : PyYear := PyYear.null
  title : Option String := none
  source : Option String := none
  type : String := "book"
  doi : Option String := none
  url : Option String := none
  publisher : Option String := none
  volume : Option String := none
  issue : Option String := none
  pages : Option String := none
  citation_key : String := ""
  location : Option String := none
  site_name : Option String := none
  retrieved_date : Option String := none
  editors : List String := []
  book_title : Option String := none
  chapter_title : Option String := none
  journal : Option String := none
  deriving DecidableEq

/-- `APA7Service._format_author_name`.  The `for_citation` flag is kept
for signature fidelity; the source's two branches are identical, so it is
unused.  `f"{last}, {first[0]}."` is only taken when `len(first) == 1`,
where `first[0]` equals `first`. -/
def format_author_name (name : String) (_for_citation : Bool) : String :=
  let commaResult : Option String :=
    if name.data.contains ',' then
      let parts := (pySplitOnComma name).map pyStrip
      if parts.length ≥ 2 then
        let last := parts.headD ""
        let first := parts.getD 1 ""
        some (if first.length = 1 then last ++ ", " ++ first ++ "." else last ++ ", " ++ first)
      else none
    else none
  match commaResult with
  | some r => r
  | none =>
    let parts := pySplitWs name
    if parts.length ≥ 2 then
      let last := parts.getLastD ""
      let first := pyJoin " " parts.dropLast
      if first.length = 1 then last ++ ", " ++ first ++ "." else last ++ ", " ++ first
    else name

/-- `APA7Service._format_author_list`.  The `is_editor` flag is unused in
the source body. -/
def format_author_list (authors : List String) (_is_editor : Bool) : String :=
  if authors = [] then ""
  else if authors.length = 1 then format_author_name (authors.headD "") false
  else if authors.length ≤ 7 then
    let formatted := authors.map (fun a => format_author_name a false)
    if formatted.length = 2 then (formatted.headD "") ++ " & " ++ (formatted.getD 1 "")
    else pyJoin ", " formatted.dropLast ++ ", & " ++ formatted.getLastD ""
  else
    let formatted := (authors.take 6).map (fun a => format_author_name a false)
    pyJoin ", " formatted ++ " et al."

/-- `APA7Service.generate_citation`. -/
def generate_citation (parsed_ref : ParsedRef) : String :=
  let authors := parsed_ref.authors
  let year := cYear parsed_ref.year
  let citation_key := parsed_ref.citation_key
  if authors = [] ∧ pyTruthyYear year = false then
    (if citation_key ≠ "" then citation_key else "(n.d.)")
  else if authors = [] then
    (if citation_key ≠ "" then
      (if pyTruthyYear year then "(" ++ citation_key ++ ", " ++ optIntStr year ++ ")"
       else "(" ++ citation_key ++ ", n.d.)")
     else
      (if pyTruthyYear year then "(n.d., " ++ optIntStr year ++ ")" else "(n.d.)"))
  else
    let author_count := authors.length
    if author_count = 1 then
      let author_str := format_author_name (authors.headD "") true
      (if pyTruthyYear year then "(" ++ author_str ++ ", " ++ optIntStr year ++ ")"
       else "(" ++ author_str ++ ", n.d.)")
    else if author_count = 2 then
      let author1 := format_author_name (authors.headD "") true
      let author2 := format_author_name (authors.getD 1 "") true
      (if pyTruthyYear year then "(" ++ author1 ++ " & " ++ author2 ++ ", " ++ optIntStr year ++ ")"
       else "(" ++ author1 ++ " & " ++ author2 ++ ", n.d.)")
    else if author_count ≤ 5 then
      let author_list := authors.map (fun a => format_author_name a true)
      let authors_str := pyJoin ", " author_list.dropLast ++ ", & " ++ author_list.getLastD ""
      (if pyTruthyYear year then "(" ++ authors_str ++ ", " ++ optIntStr year ++ ")"
       else "(" ++ authors_str ++ ", n.d.)")
    else
      let first_author := format_author_name (authors.headD "") true
      (if pyTruthyYear year then "(" ++ first_author ++ " et al., " ++ optIntStr year ++ ")"
       else "(" ++ first_author ++ " et al., n.d.)")

/-- The year segment of the reference formatters:
`year = ref.get("year", "n.d."); if year: parts.append(f"({year}).")`.
A missing key yields the truthy string `"n.d."`; a `None` value and the
int `0` are falsy and contribute nothing. -/
def yearParts : PyYear → List String
  | PyYear.absent => ["(n.d.)."]
  | PyYear.null => []
  | PyYear.val v => if v = 0 then [] else ["(" ++ toString v ++ ")."]

/-- A `title`-style segment: `if title: parts.append(f"{title}.")`. -/
def optDotPart : Option String → List String
  | some t => if t ≠ "" then [t ++ "."] else []
  | none => []

/-- `APA7Service._format_book_reference`. -/
def format_book_reference (ref : ParsedRef) : String :=
  let author_str := format_author_list ref.authors false
  let publisher := pyGetStr ref.publisher
  let location := pyGetStr ref.location
  let parts :=
    (if author_str ≠ "" then [author_str] else [])
    ++ yearParts ref.year
    ++ optDotPart ref.title
    ++ (if publisher ≠ "" then
         (if location ≠ "" then [location ++ ": " ++ publisher ++ "."] else [publisher ++ "."])
        else [])
  pyJoin " " parts

/-- `APA7Service._format_article_reference`.  `ref.get("source",
ref.get("journal", ""))`: the `journal` fallback fires only when the
`source` key is missing. -/
def format_article_reference (ref : ParsedRef) : String :=
  let author_str := format_author_list ref.authors false
  let source := match ref.source with | some s => s | none => pyGetStr ref.journal
  let volume := pyGetStr ref.volume
  let issue := pyGetStr ref.issue
  let pages := pyGetStr ref.pages
  let doi := pyGetStr ref.doi
  let parts :=
    (if author_str ≠ "" then [author_str] else [])
    ++ yearParts ref.year
    ++ optDotPart ref.title
    ++ (if source ≠ "" then
         (if volume ≠ "" then
           (if issue ≠ "" then [source ++ ", " ++ volume ++ "(" ++ issue ++ "),"]
            else [source ++ ", " ++ volume ++ ","])
          else [source ++ ","])
        else [])
    ++ (if pages ≠ "" then [pages ++ "."] else [])
    ++ (if doi ≠ "" then ["https://doi.org/" ++ doi] else [])
  pyJoin " " parts

/-- `APA7Service._format_web_reference`.  `retrieved_date` defaults to
`datetime.now().strftime("%B %d, %Y")`, modelled by the explicit `now`
argument.  `if year and year != "n.d.":` sends a missing year (the
truthy string `"n.d."`), a `None` year, and the int `0` to the
retrieved-date branch. -/
def format_web_reference (now : String) (ref : ParsedRef) : String :=
  let site_name := match ref.site_name with | some s => s | none => pyGetStr ref.source
  let url := pyGetStr ref.url
  let retrieved_date := match ref.retrieved_date with | some d => d | none => now
  let author_str :=
    if ref.authors ≠ [] then format_author_list ref.authors false
    else if site_name ≠ "" then site_name
    else ""
  let parts :=
    (if author_str ≠ "" then [author_str] else [])
    ++ (if pyTruthyYear (cYear ref.year) then ["(" ++ optIntStr (cYear ref.year) ++ ")."]
        else if retrieved_date ≠ "" then ["(" ++ retrieved_date ++ ")."] else [])
    ++ optDotPart ref.title
    ++ (if site_name ≠ "" ∧ ref.authors ≠ [] then [site_name ++ "."] else [])
    ++ (if url ≠ "" then [url] else [])
  pyJoin " " parts

/-- `APA7Service._format_chapter_reference`.  `ref.get("title",
ref.get("chapter_title", ""))` and `ref.get("book_title",
ref.get("source", ""))`: each fallback fires only when the first key is
missing. -/
def format_chapter_reference (ref : ParsedRef) : String :=
  let chapter_title := match ref.title with | some t => t | none => pyGetStr ref.chapter_title
  let book_title := match ref.book_title with | some b => b | none => pyGetStr ref.source
  let publisher := pyGetStr ref.publisher
  let pages := pyGetStr ref.pages
  let author_str := format_author_list ref.authors false
  let editor_str := format_author_list ref.editors true
  let parts :=
    (if author_str ≠ "" then [author_str] else [])
    ++ yearParts ref.year
    ++ (if chapter_title ≠ "" then [chapter_title ++ "."] else [])
    ++ (if editor_str ≠ "" ∧ book_title ≠ "" then ["In " ++ editor_str ++ " (Ed.), " ++ book_title]
        else if book_title ≠ "" then ["In " ++ book_title] else [])
    ++ (if pages ≠ "" then ["(pp. " ++ pages ++ ")."] else if book_title ≠ "" then ["."] else [])
    ++ (if publisher ≠ "" then [publisher ++ "."] else [])
  pyJoin " " parts

/-- `APA7Service._format_generic_reference`. -/
def format_generic_reference (ref : ParsedRef) : String :=
  let author_str := format_author_list ref.authors false
  let source := pyGetStr ref.source
  let parts :=
    (if author_str ≠ "" then [author_str] else [])
    ++ yearParts ref.year
    ++ optDotPart ref.title
    ++ (if source ≠ "" then [source ++ "."] else [])
  pyJoin " " parts

/-- `APA7Service.generate_reference` (dispatch on `type.lower()`). -/
def generate_reference (now : String) (parsed_ref : ParsedRef) : String :=
  let ref_type := pyLower parsed_ref.type
  if ref_type = "book" then format_book_reference parsed_ref
  else if ref_type = "article" then format_article_reference parsed_ref
  else if ref_type = "web" ∨ ref_type = "website" then format_web_reference now parsed_ref
  else if ref_type = "chapter" then format_chapter_reference parsed_ref
  else format_generic_reference parsed_ref

/-- `APA7Service.generate_reference_list`. -/
def generate_reference_list (now : String) (references : List ParsedRef)
    (format_output : String) : String :=
  let formatted_refs := references.map (fun ref =>
    let formatted := generate_reference now ref
    if format_output = "html" then
      "<p style=\"text-indent: -36px; padding-left: 36px;\">" ++ formatted ++ "</p>"
    else if format_output = "latex" then
      "\\hangindent=36pt " ++ formatted ++ "\\\\"
    else
      "\t" ++ formatted)
  pyJoin "\n" formatted_refs

/-- Collapse whitespace runs to a single space
(`re.sub(r'\s+', ' ', s)`); the flag records whether the previous
character was whitespace. -/
def collapseWsAux (prevWs : Bool) : List Char → List Char
  | [] => []
  | c :: t =>
    if isPySpace c then
      (if prevWs then collapseWsAux true t else ' ' :: collapseWsAux true t)
    else c :: collapseWsAux false t

/-- `APA7Service._normalize_author`: lowercase, drop characters matching
`[^\w\s]`, collapse whitespace, strip. -/
def normalize_author (author : String) : String :=
  let lowered := pyLower author
  let stripped := lowered.data.filter (fun c => isWordChar c || isPySpace c)
  String.mk (pyStripChars (collapseWsAux false stripped))

/-- The `parsed` sub-dict of a stored citation/reference record
(`citation.get("parsed", {})` with `authors`/`year` entries). -/
structure CitationParsed where
  authors : List String := []
  year : Option Int := none
  deriving DecidableEq

/-- A stored citation record as supplied to `validate_coherence`
(`citation_key` is `none` when the key is missing or `None`). -/
structure CitationRecord where
  citation_key : Option String := none
  citation_text : String := ""
  parsed : CitationParsed := {}
  deriving DecidableEq

/-- A stored reference record as supplied to `validate_coherence`. -/
structure ReferenceRecord where
  ref_key : Option String := none
  ref_text : String := ""
  parsed : CitationParsed := {}
  deriving DecidableEq

/-- An entry of `citations_without_reference`. -/
structure MissingCitationFinding where
  citation_key : String
  citation_text : String
  deriving DecidableEq

/-- An entry of `references_without_citations`. -/
structure MissingReferenceFinding where
  ref_key : String
  ref_text : String
  deriving DecidableEq

/-- An entry of `imperfect_matches`. -/
structure ImperfectMatchFinding where
  citation_key : String
  ref_key : String
  citation_authors : List String
  reference_authors : List String
  citation_year : Option Int
  reference_year : Option Int
  issue : String
  deriving DecidableEq

/-- The result dict of `validate_coherence`. -/
structure ValidationResult where
  citations_without_reference : List MissingCitationFinding
  references_without_citations : List MissingReferenceFinding
  imperfect_matches : List ImperfectMatchFinding
  deriving DecidableEq

/-- A Python dict as an insertion-ordered association list: assigning to
an existing key replaces its value in place (keeping the key's original
position); a new key is appended. -/
def dictInsert {α : Type} (m : List (String × α)) (k : String) (v : α) : List (String × α) :=
  if m.any (fun p => p.1 == k) then m.map (fun p => if p.1 == k then (k, v) else p)
  else m ++ [(k, v)]

/-- The truthiness filter `if c.get("citation_key")`: missing, `None`
and `""` keys are rejected. -/
def truthyKey : Option String → Option String
  | some s => if s = "" then none else some s
  | none => none

/-- One step of the dict comprehension
`{c.get("citation_key", ""): c for c in citations if c.get("citation_key")}`. -/
def dictStep {α : Type} (keyOf : α → Option String) (m : List (String × α)) (x : α) :
    List (String × α) :=
  match truthyKey (keyOf x) with
  | some k => dictInsert m k x
  | none => m

/-- The dict comprehension building a key → record map (last write wins
on values, first occurrence fixes the position). -/
def buildDict {α : Type} (keyOf : α → Option String) (xs : List α) : List (String × α) :=
  xs.foldl (dictStep keyOf) []

/-- Python `k in d` / `d[k]` on the association-list dict. -/
def dictFind {α : Type} (m : List (String × α)) (k : String) : Option α :=
  (m.find? (fun p => p.1 == k)).map (fun p => p.2)

/-- `APA7Service.validate_coherence`.  The three `for` loops over the
dicts' `items()` are `filterMap`s over the insertion-ordered maps. -/
def validate_coherence (citations : List CitationRecord) (references : List ReferenceRecord) :
    ValidationResult :=
  let citation_keys := buildDict (fun c => c.citation_key) citations
  let reference_keys := buildDict (fun r => r.ref_key) references
  { citations_without_reference :=
      citation_keys.filterMap (fun p =>
        if (dictFind reference_keys p.1).isNone then
          some { citation_key := p.1, citation_text := p.2.citation_text }
        else none)
  , references_without_citations :=
      reference_keys.filterMap (fun p =>
        if (dictFind citation_keys p.1).isNone then
          some { ref_key := p.1, ref_text := p.2.ref_text }
        else none)
  , imperfect_matches :=
      citation_keys.filterMap (fun p =>
        match dictFind reference_keys p.1 with
        | some reference =>
          let cit_authors := p.2.parsed.authors
          let ref_authors := reference.parsed.authors
          let cit_year := p.2.parsed.year
          let ref_year := reference.parsed.year
          if cit_authors.map normalize_author ≠ ref_authors.map normalize_author
              ∨ cit_year ≠ ref_year then
            some { citation_key := p.1, ref_key := p.1, citation_authors := cit_authors,
                   reference_authors := ref_authors, citation_year := cit_year,
                   reference_year := ref_year,
                   issue := "Authors or year mismatch between citation and reference" }
          else none
        | none => none) }

/-- Scan for the leftmost suffix at which the matcher `f` succeeds
(`re.search` position scan). -/
def scanSuffixes {α : Type} (f : List Char → Option α) : List Char → Option α
  | [] => f []
  | c :: t =>
    match f (c :: t) with
    | some a => some a
    | none => scanSuffixes f t

/-- Match `10\.\d{4,}/[^\s]+` at the current position.  The digit run and
the trailing non-space run are maximal; since the follow-up characters
are disjoint from the classes, greedy matching needs no backtracking. -/
def doiAt (l : List Char) : Option (List Char) :=
  match l with
  | '1' :: '0' :: '.' :: rest =>
    let ds := rest.takeWhile Char.isDigit
    if ds.length ≥ 4 then
      match rest.drop ds.length with
      | '/' :: rest2 =>
        let ns := rest2.takeWhile (fun c => !isPySpace c)
        if ns = [] then none else some ('1' :: '0' :: '.' :: (ds ++ '/' :: ns))
      | _ => none
    else none
  | _ => none

/-- `DOI_PATTERN.search(raw_text)`: leftmost match of
`10\.\d{4,}/[^\s]+` (case-insensitivity is vacuous here). -/
def findDoi (raw : String) : Option String :=
  (scanSuffixes doiAt raw.data).map String.mk

/-- Match `https?://[^\s]+` (case-insensitive scheme) at the current
position, returning the matched text verbatim. -/
def urlAt (l : List Char) : Option (List Char) :=
  if (l.take 4).map Char.toLower = "http".data then
    let n1 := match l.drop 4 with
      | c :: _ => if c.toLower = 's' then 5 else 4
      | [] => 4
    match l.drop n1 with
    | ':' :: '/' :: '/' :: r2 =>
      let ns := r2.takeWhile (fun c => !isPySpace c)
      if ns = [] then none else some (l.take (n1 + 3 + ns.length))
    | _ => none
  else none

/-- `re.search(r'https?://[^\s]+', raw_text, re.IGNORECASE)`. -/
def findUrl (raw : String) : Option String :=
  (scanSuffixes urlAt raw.data).map String.mk

/-- Match `\b(19|20)\d{2}\b` at the current position, given the previous
character (for the word boundary), and parse the four digits as an int. -/
def yearAt (prev : Option Char) (l : List Char) : Option Int :=
  match l with
  | c1 :: c2 :: c3 :: c4 :: rest =>
    if (match prev with | some p => !isWordChar p | none => true)
        && ((c1 = '1' && c2 = '9') || (c1 = '2' && c2 = '0'))
        && c3.isDigit && c4.isDigit
        && (match rest with | [] => true | r :: _ => !isWordChar r) then
      some (((c1.toNat - 48) * 1000 + (c2.toNat - 48) * 100
              + (c3.toNat - 48) * 10 + (c4.toNat - 48) : Nat) : Int)
    else none
  | _ => none

/-- Leftmost `\b(19|20)\d{2}\b` match, threading the previous character
for the left word boundary. -/
def findYearAux (prev : Option Char) : List Char → Option Int
  | [] => yearAt prev []
  | c :: t =>
    match yearAt prev (c :: t) with
    | some y => some y
    | none => findYearAux (some c) t

/-- `re.search(r'\b(19|20)\d{2}\b', raw_text)` parsed as an int
(the source's `findall` followed by `re.search` is the same leftmost
match). -/
def findYear (raw : String) : Option Int :=
  findYearAux none raw.data

/-- Python `haystack.find(needle)` (index of first occurrence). -/
def pyFindSubAux (needle : List Char) : List Char → Nat → Option Nat
  | [], i => if needle = [] then some i else none
  | c :: t, i =>
    if needle.isPrefixOf (c :: t) then some i else pyFindSubAux needle t (i + 1)

/-- Python `haystack.find(needle)` returning `none` for "not found". -/
def pyFindSub (hay needle : List Char) : Option Nat :=
  pyFindSubAux needle hay 0

/-- Python `needle in haystack`. -/
def listContainsSub (hay needle : List Char) : Bool :=
  (pyFindSub hay needle).isSome

/-- The author-search window: `raw_text[:raw_text.find(str(year))]` when
a year was found (else the whole string), then `split('.')[0]`.  The
`find() = -1` arm mirrors Python's `raw[:-1]`; it is unreachable because
`str(int(m))` of the matched digits occurs in the text. -/
def authorSectionOf (raw : String) (year : Option Int) : List Char :=
  let before :=
    match year with
    | some y =>
      match pyFindSub raw.data (toString y).data with
      | some i => raw.data.take i
      | none => raw.data.take (raw.data.length - 1)
    | none => raw.data
  if before.contains '.' then before.takeWhile (fun c => c ≠ '.') else before

/-- Match one `\s+[A-Z]\.?` group (whitespace run, capital, optional
dot). -/
def initialsOne (l : List Char) : Option (List Char × List Char) :=
  let ws := l.takeWhile isPySpace
  if ws = [] then none
  else
    match l.drop ws.length with
    | c :: rest =>
      if c.isUpper then
        match rest with
        | '.' :: rest2 => some (ws ++ [c, '.'], rest2)
        | _ => some (ws ++ [c], rest)
      else none
    | [] => none

/-- Match `(?:\s+[A-Z]\.?)+` greedily (each group is deterministic, so
greedy repetition is simple iteration). -/
def initialsPlusAux (fuel : Nat) (l : List Char) : Option (List Char × List Char) :=
  match fuel with
  | 0 => none
  | fuel + 1 =>
    match initialsOne l with
    | some (m, r) =>
      (match initialsPlusAux fuel r with
       | some (m2, r2) => some (m ++ m2, r2)
       | none => some (m, r))
    | none => none

/-- Match `[A-Z][a-z]+(?:\s+[A-Z]\.?)+` at the current position. -/
def authorMatchAt (fuel : Nat) (l : List Char) : Option (List Char × List Char) :=
  match l with
  | c :: t =>
    if c.isUpper then
      let lows := t.takeWhile Char.isLower
      if lows = [] then none
      else
        match initialsPlusAux fuel (t.drop lows.length) with
        | some (m, r) => some (c :: (lows ++ m), r)
        | none => none
    else none
  | [] => none

/-- `re.findall` of the author pattern: non-overlapping leftmost matches,
resuming after each match. -/
def findAuthorsAux (fuel : Nat) (l : List Char) : List String :=
  match fuel with
  | 0 => []
  | fuel + 1 =>
    match authorMatchAt l.length l with
    | some (m, r) => String.mk m :: findAuthorsAux fuel r
    | none =>
      match l with
      | [] => []
      | _ :: t => findAuthorsAux fuel t

/-- `re.findall(r'([A-Z][a-z]+(?:\s+[A-Z]\.?)+)', author_section)`.  The
fuel bound `length + 1` covers every scan step, since each step consumes
at least one character. -/
def findAuthors (l : List Char) : List String :=
  findAuthorsAux (l.length + 1) l

/-- Title extraction: the slice `raw[len(author_section):year_pos]`,
stripped, with leading `[.,;:\s]+` removed, accepted only when longer
than 10 characters. -/
def titleOf (raw : String) (year : Option Int) (author_section : List Char) : Option String :=
  match year with
  | some y =>
    let year_pos := (pyFindSub raw.data (toString y).data).getD (raw.data.length - 1)
    let ts := (raw.data.take year_pos).drop author_section.length
    let ts := pyStripChars ts
    let ts := ts.dropWhile (fun c => c = '.' || c = ',' || c = ';' || c = ':' || isPySpace c)
    if ts ≠ [] ∧ ts.length > 10 then some (String.mk ts) else none
  | none => none

/-- Match `[A-Z][a-z]+` (a capitalized word) at the current position. -/
def capWordAt (l : List Char) : Option (List Char × List Char) :=
  match l with
  | c :: t =>
    if c.isUpper then
      let lows := t.takeWhile Char.isLower
      if lows = [] then none else some (c :: lows, t.drop lows.length)
    else none
  | [] => none

/-- Match the alternation `(?:Journal|Review|Magazine)` (in order, as a
plain prefix — the pattern has no trailing word boundary). -/
def kwAt (l : List Char) : Option (List Char × List Char) :=
  if l.take 7 = "Journal".data then some ("Journal".data, l.drop 7)
  else if l.take 6 = "Review".data then some ("Review".data, l.drop 6)
  else if l.take 8 = "Magazine".data then some ("Magazine".data, l.drop 8)
  else none

/-- Match `(?:\s+[A-Z][a-z]+)*\s+(?:Journal|Review|Magazine)` with
greedy-first backtracking: try one more capitalized word and recurse;
on failure fall back to the keyword at the same point. -/
def jTail (fuel : Nat) (l : List Char) : Option (List Char × List Char) :=
  match fuel with
  | 0 => none
  | fuel + 1 =>
    let ws := l.takeWhile isPySpace
    if ws = [] then none
    else
      let r := l.drop ws.length
      match capWordAt r with
      | some (w, r2) =>
        (match jTail fuel r2 with
         | some (m, r3) => some (ws ++ (w ++ m), r3)
         | none => (kwAt r).map (fun q => (ws ++ q.1, q.2)))
      | none => (kwAt r).map (fun q => (ws ++ q.1, q.2))

/-- Match the full journal pattern
`[A-Z][a-z]+(?:\s+[A-Z][a-z]+)*\s+(?:Journal|Review|Magazine)` at the
current position. -/
def journalAt (fuel : Nat) (l : List Char) : Option (List Char) :=
  match capWordAt l with
  | some (w, r) =>
    (match jTail fuel r with
     | some (m, _) => some (w ++ m)
     | none => none)
  | none => none

/-- `re.search` of the journal pattern (group 1 is the whole match). -/
def findJournal (raw : String) : Option String :=
  (scanSuffixes (fun l => journalAt l.length l) raw.data).map String.mk

/-- Match `(\d+)\s*\((\d+)\)` at the current position. -/
def viAt (l : List Char) : Option (String × String) :=
  let d1 := l.takeWhile Char.isDigit
  if d1 = [] then none
  else
    match (l.drop d1.length).dropWhile isPySpace with
    | '(' :: r2 =>
      let d2 := r2.takeWhile Char.isDigit
      if d2 = [] then none
      else
        match r2.drop d2.length with
        | ')' :: _ => some (String.mk d1, String.mk d2)
        | _ => none
    | _ => none

/-- `re.search(r'(\d+)\s*\((\d+)\)', raw_text)`: volume and issue. -/
def findVolIssue (raw : String) : Option (String × String) :=
  scanSuffixes viAt raw.data

/-- The page-separator class of the source.  The source file's bytes
spell the class `[-â€“]` (an en-dash that was double-encoded), so it
contains the ASCII hyphen plus those three literal characters. -/
def isDashLike (c : Char) : Bool :=
  c = '-' || c = 'â' || c = '€' || c = '“'

/-- Match `(\d+)\s*[-â€“]\s*(\d+)` at the current position, producing
the stored `"<start>-<end>"` form. -/
def pagesAt (l : List Char) : Option String :=
  let d1 := l.takeWhile Char.isDigit
  if d1 = [] then none
  else
    match (l.drop d1.length).dropWhile isPySpace with
    | c :: r2 =>
      if isDashLike c then
        let r3 := r2.dropWhile isPySpace
        let d2 := r3.takeWhile Char.isDigit
        if d2 = [] then none else some (String.mk d1 ++ "-" ++ String.mk d2)
      else none
    | [] => none

/-- `re.search` of the pages pattern. -/
def findPages (raw : String) : Option String :=
  scanSuffixes pagesAt raw.data

/-- `APA7Service.parse_reference_text`: the sequential best-effort
extraction passes.  `type` starts at `"book"`, is set to `"web"` when a
URL is found, and overridden to `"article"` when the text contains
`"Journal"` or `"Review"`; `publisher` is never assigned. -/
def parse_reference_text (raw : String) : ParsedRef :=
  let doi := findDoi raw
  let url := findUrl raw
  let year := findYear raw
  let author_section := authorSectionOf raw year
  let authors := (findAuthors author_section).take 5
  let title := titleOf raw year author_section
  let has_journal := listContainsSub raw.data "Journal".data
    || listContainsSub raw.data "Review".data
  let source := if has_journal then findJournal raw else none
  let t1 := if url.isSome then "web" else "book"
  let type_ := if has_journal then "article" else t1
  let vi := findVolIssue raw
  { authors := authors
  , year := match year with | some y => PyYear.val y | none => PyYear.null
  , title := title
  , source := source
  , type := type_
  , doi := doi
  , url := url
  , publisher := none
  , volume := vi.map (fun q => q.1)
  , issue := vi.map (fun q => q.2)
  , pages := findPages raw }

/-- C2's spec wording of author normalization: lowercase, strip all
non-alphanumeric/non-space characters (this version, unlike the code's
`[^\w\s]`, also strips the underscore), collapse whitespace. -/
def spec_normalize_author (author : String) : String :=
  let lowered := pyLower author
  let stripped := lowered.data.filter (fun c => c.isAlphanum || isPySpace c)
  String.mk (pyStripChars (collapseWsAux false stripped))

/-- Joining a non-empty list starts with its head. -/
theorem pyJoin_cons_head (sep a : String) (l : List String) :
    ∃ r, pyJoin sep (a :: l) = a ++ r := by
  cases l with
  | nil => exact ⟨"", by simp [pyJoin]⟩
  | cons y t => exact ⟨sep ++ pyJoin sep (y :: t), by simp [pyJoin, String.append_assoc]⟩

/-- C9: `generate_reference_list` with any format other than `"html"` and
`"latex"` behaves exactly like the `"text"` format (one tab before each
entry, entries joined by newlines), and is total. -/
theorem C9_theorem : ∀ (now : String) (refs : List ParsedRef) (fmt : String),
    fmt ≠ "html" → fmt ≠ "latex" →
    generate_reference_list now refs fmt = generate_reference_list now refs "text" := by
  intro now refs fmt h1 h2
  unfold generate_reference_list
  dsimp only
  refine congrArg (pyJoin "\n") (List.map_congr_left ?_)
  intro ref _
  simp [h1, h2]

/-- C9 witness at a concrete unrecognized format string. -/
theorem C9_witness :
    generate_reference_list "January 01, 2025"
        [{ authors := ["Smith, J."], year := PyYear.val 2020, title := some "Book Title" }] "bogus"
      = generate_reference_list "January 01, 2025"
        [{ authors := ["Smith, J."], year := PyYear.val 2020, title := some "Book Title" }] "text" :=
  C9_theorem "January 01, 2025"
    [{ authors := ["Smith, J."], year := PyYear.val 2020, title := some "Book Title" }] "bogus"
    (by decide) (by decide)

/-- C4: the in-text citation switches form between exactly 5 authors
(all formatted names comma-joined, the last joined by ", & ") and
exactly 6 authors (first formatted author followed by " et al."). -/
theorem C4_theorem : ∀ (ref : ParsedRef) (a1 a2 a3 a4 a5 a6 : String),
    (ref.authors = [a1, a2, a3, a4, a5] →
      generate_citation ref =
        "(" ++ format_author_name a1 true ++ ", " ++ format_author_name a2 true ++ ", "
          ++ format_author_name a3 true ++ ", " ++ format_author_name a4 true ++ ", & "
          ++ format_author_name a5 true ++ ", "
          ++ (if pyTruthyYear (cYear ref.year) then optIntStr (cYear ref.year) else "n.d.") ++ ")")
    ∧ (ref.authors = [a1, a2, a3, a4, a5, a6] →
      generate_citation ref =
        "(" ++ format_author_name a1 true ++ " et al., "
          ++ (if pyTruthyYear (cYear ref.year) then optIntStr (cYear ref.year) else "n.d.") ++ ")") := by
  intro ref a1 a2 a3 a4 a5 a6
  constructor
  · intro h
    cases hy : pyTruthyYear (cYear ref.year) <;>
      simp [generate_citation, h, hy, pyJoin, String.append_assoc]
  · intro h
    cases hy : pyTruthyYear (cYear ref.year) <;>
      simp [generate_citation, h, hy, String.append_assoc]

/-- C4 witness at both boundary sizes. -/
theorem C4_witness :
    generate_citation { authors := ["Aa, B.", "Cc, D.", "Ee, F.", "Gg, H.", "Ii, J."], year := PyYear.val 2020 } = "(Aa, B., Cc, D., Ee, F., Gg, H., & Ii, J., 2020)"
    ∧ generate_citation { authors := ["Aa, B.", "Cc, D.", "Ee, F.", "Gg, H.", "Ii, J.", "Kk, L."], year := PyYear.val 2020 } = "(Aa, B. et al., 2020)" := by
  constructor
  · rw [(C4_theorem ({ authors := ["Aa, B.", "Cc, D.", "Ee, F.", "Gg, H.", "Ii, J."], year := PyYear.val 2020 } : ParsedRef) "Aa, B." "Cc, D." "Ee, F." "Gg, H." "Ii, J." "x").1 rfl]
    decide
  · rw [(C4_theorem ({ authors := ["Aa, B.", "Cc, D.", "Ee, F.", "Gg, H.", "Ii, J.", "Kk, L."], year := PyYear.val 2020 } : ParsedRef) "Aa, B." "Cc, D." "Ee, F." "Gg, H." "Ii, J." "Kk, L.").2 rfl]
    decide

/-- A string that is non-empty, begins with `'('` and ends with `')'`
(the last character is the head of the reversed character list). -/
def parenWrapped (s : String) : Bool :=
  (s.data.head? == some '(') && (s.data.reverse.head? == some ')')

/-- A paren-wrapped string is non-empty. -/
theorem parenWrapped_ne_empty (s : String) (h : parenWrapped s = true) : s ≠ "" := by
  intro he
  rw [he] at h
  simp [parenWrapped] at h

/-- C3 (amended): `generate_citation` is total and returns a non-empty
string; with no authors and a falsy year it returns the `citation_key`
when one is present (verbatim, not parenthesized) and `"(n.d.)"`
otherwise; in every other case the result is parenthesized. -/
theorem C3_amended (ref : ParsedRef) :
    generate_citation ref ≠ ""
    ∧ (ref.authors = [] → pyTruthyYear (cYear ref.year) = false →
        generate_citation ref = (if ref.citation_key ≠ "" then ref.citation_key else "(n.d.)"))
    ∧ (¬ (ref.authors = [] ∧ pyTruthyYear (cYear ref.year) = false ∧ ref.citation_key ≠ "") →
        parenWrapped (generate_citation ref) = true) := by
  have beq : ref.authors = [] → pyTruthyYear (cYear ref.year) = false →
      generate_citation ref = (if ref.citation_key ≠ "" then ref.citation_key else "(n.d.)") := by
    intro ha hy
    simp only [generate_citation]
    rw [if_pos ⟨ha, hy⟩]
  have wrapped : ¬ (ref.authors = [] ∧ pyTruthyYear (cYear ref.year) = false
      ∧ ref.citation_key ≠ "") → parenWrapped (generate_citation ref) = true := by
    intro hnot
    by_cases ha : ref.authors = []
    · by_cases hy : pyTruthyYear (cYear ref.year) = false
      · by_cases hk : ref.citation_key ≠ ""
        · exact absurd ⟨ha, hy, hk⟩ hnot
        · rw [beq ha hy, if_neg hk]
          decide
      · simp only [generate_citation]
        rw [if_neg (by tauto), if_pos ha]
        split_ifs <;> simp [parenWrapped, String.data_append]
    · simp only [generate_citation]
      rw [if_neg (by tauto), if_neg ha]
      split_ifs <;> simp [parenWrapped, String.data_append]
  refine ⟨?_, beq, wrapped⟩
  by_cases htriple : ref.authors = [] ∧ pyTruthyYear (cYear ref.year) = false
      ∧ ref.citation_key ≠ ""
  · rw [beq htriple.1 htriple.2.1, if_pos htriple.2.2]
    exact htriple.2.2
  · intro he
    have hw := wrapped htriple
    rw [he] at hw
    simp [parenWrapped] at hw

/-- C3 counterexample: with no authors, no year and a citation key that
is not parenthesized, `generate_citation` returns the key verbatim, so
its result does not begin with `'('`. -/
theorem C3_counterexample :
    generate_citation { authors := [], year := PyYear.null, citation_key := "[Smith, 2020]" } = "[Smith, 2020]"
    ∧ parenWrapped (generate_citation { authors := [], year := PyYear.null, citation_key := "[Smith, 2020]" }) = false := by
  constructor <;> decide

/-- C3 witness at a concrete single-author input. -/
theorem C3_witness :
    generate_citation { authors := ["Smith, J."], year := PyYear.val 2020 } ≠ ""
    ∧ parenWrapped (generate_citation { authors := ["Smith, J."], year := PyYear.val 2020 }) = true :=
  ⟨(C3_amended { authors := ["Smith, J."], year := PyYear.val 2020 }).1,
   (C3_amended { authors := ["Smith, J."], year := PyYear.val 2020 }).2.2 (by decide)⟩

/-- An infix of a list is an infix of any cons extension. -/
theorem isInfix_cons {α : Type} (c : α) {i l : List α} (h : List.IsInfix i l) :
    List.IsInfix i (c :: l) := by
  obtain ⟨s, t, hst⟩ := h
  exact ⟨c :: s, t, by rw [← hst]; simp⟩

/-- An infix of a list is an infix of any left append extension. -/
theorem isInfix_append_left {α : Type} (a : List α) {i l : List α} (h : List.IsInfix i l) :
    List.IsInfix i (a ++ l) := by
  obtain ⟨s, t, hst⟩ := h
  exact ⟨a ++ s, t, by rw [← hst]; simp⟩

/-- Every member of the joined list occurs inside the join. -/
theorem mem_pyJoin_isInfix (sep : String) (l : List String) (x : String) (hx : x ∈ l) :
    List.IsInfix x.data (pyJoin sep l).data := by
  induction l with
  | nil => cases hx
  | cons a t ih =>
    cases t with
    | nil =>
      rw [List.mem_singleton] at hx
      subst hx
      exact List.infix_rfl
    | cons b t2 =>
      rcases List.mem_cons.mp hx with hxa | hx'
      · subst hxa
        refine ⟨[], sep.data ++ (pyJoin sep (b :: t2)).data, ?_⟩
        simp [pyJoin, String.data_append]
      · have hrec := ih hx'
        show List.IsInfix x.data (a ++ sep ++ pyJoin sep (b :: t2)).data
        rw [String.data_append]
        exact isInfix_append_left _ hrec

/-- C8 (amended): when the year is absent, `generate_citation` renders
"n.d." except in the bare-citation-key case; the reference formatters
render "(n.d.)." only when the `year` key is missing from the input
mapping (`PyYear.absent`); when the year is present-but-null (the form
produced by the parser and the API layer) the year segment is omitted
entirely. -/
theorem C8_amended (now : String) (ref : ParsedRef) :
    (cYear ref.year = none →
      (if ref.authors = [] ∧ ref.citation_key ≠ "" then generate_citation ref = ref.citation_key
       else List.IsInfix "n.d.".data (generate_citation ref).data))
    ∧ (ref.year = PyYear.absent → pyLower ref.type = "book" →
        List.IsInfix "(n.d.).".data (generate_reference now ref).data)
    ∧ (ref.year = PyYear.absent →
        List.IsInfix "(n.d.).".data (format_generic_reference ref).data)
    ∧ (ref.year = PyYear.null → pyLower ref.type = "book" →
        generate_reference now ref = pyJoin " "
          ((if format_author_list ref.authors false ≠ "" then [format_author_list ref.authors false] else [])
            ++ optDotPart ref.title
            ++ (if pyGetStr ref.publisher ≠ "" then
                 (if pyGetStr ref.location ≠ "" then [pyGetStr ref.location ++ ": " ++ pyGetStr ref.publisher ++ "."]
                  else [pyGetStr ref.publisher ++ "."])
                else [])))
    ∧ (ref.year = PyYear.null →
        format_generic_reference ref = pyJoin " "
          ((if format_author_list ref.authors false ≠ "" then [format_author_list ref.authors false] else [])
            ++ optDotPart ref.title
            ++ (if pyGetStr ref.source ≠ "" then [pyGetStr ref.source ++ "."] else []))) := by
  refine ⟨?_, ?_, ?_, ?_, ?_⟩
  · intro hy
    have hty : pyTruthyYear (cYear ref.year) = false := by rw [hy]; rfl
    by_cases hcase : ref.authors = [] ∧ ref.citation_key ≠ ""
    · rw [if_pos hcase]
      simp only [generate_citation]
      rw [if_pos ⟨hcase.1, hty⟩, if_pos hcase.2]
    · rw [if_neg hcase]
      by_cases ha : ref.authors = []
      · have hk : ¬ ref.citation_key ≠ "" := fun hk => hcase ⟨ha, hk⟩
        simp only [generate_citation]
        rw [if_pos ⟨ha, hty⟩, if_neg hk]
        decide
      · simp only [generate_citation]
        rw [if_neg (by tauto), if_neg ha]
        simp only [hty, Bool.false_eq_true, if_false]
        split_ifs <;>
          (rw [String.data_append]; exact isInfix_append_left _ (by decide))
  · intro hy htype
    simp only [generate_reference, htype, if_pos]
    simp only [format_book_reference]
    exact mem_pyJoin_isInfix _ _ _ (by simp [hy, yearParts])
  · intro hy
    simp only [format_generic_reference]
    exact mem_pyJoin_isInfix _ _ _ (by simp [hy, yearParts])
  · intro hy htype
    simp only [generate_reference, htype, if_pos]
    simp only [format_book_reference, hy, yearParts]
    simp
  · intro hy
    simp only [format_generic_reference, hy, yearParts]
    simp

/-- C8 counterexample: a book reference whose `year` entry is null (as
`parse_reference_text` and the API layer produce) renders with the year
segment omitted — "n.d." appears nowhere in the output. -/
theorem C8_counterexample :
    generate_reference "January 01, 2025" { authors := ["Smith, J."], year := PyYear.null, title := some "Theory of Things", type := "book" } = "Smith, J. Theory of Things."
    ∧ ¬ List.IsInfix "n.d.".data (generate_reference "January 01, 2025" { authors := ["Smith, J."], year := PyYear.null, title := some "Theory of Things", type := "book" }).data := by
  constructor <;> decide

/-- C8 witness: the citation renders "n.d." for a null year, and the
book formatter renders "(n.d.)." when the year key is missing. -/
theorem C8_witness :
    List.IsInfix "n.d.".data (generate_citation { authors := ["Smith, J."], year := PyYear.null }).data
    ∧ List.IsInfix "(n.d.).".data (generate_reference "January 01, 2025" { authors := ["Smith, J."], year := PyYear.absent, title := some "Theory of Things" }).data := by
  constructor
  · have h := (C8_amended "January 01, 2025" { authors := ["Smith, J."], year := PyYear.null }).1 (by decide)
    rw [if_neg (by decide)] at h
    exact h
  · exact (C8_amended "January 01, 2025" { authors := ["Smith, J."], year := PyYear.absent, title := some "Theory of Things" }).2.1 (by decide) (by decide)

/-- Joining the parts list always starts with the author segment when it
is non-empty (and degenerates harmlessly when it is empty). -/
theorem pyJoin_if_head (a : String) (rest : List String) :
    ∃ r, pyJoin " " ((if a ≠ "" then [a] else []) ++ rest) = a ++ r := by
  by_cases h : a = ""
  · subst h
    simp
  · rw [if_pos h]
    exact pyJoin_cons_head " " a rest

/-- A book entry starts with the formatted author list. -/
theorem format_book_reference_head (ref : ParsedRef) :
    ∃ r, format_book_reference ref = format_author_list ref.authors false ++ r := by
  simp only [format_book_reference, List.append_assoc]
  exact pyJoin_if_head _ _

/-- An article entry starts with the formatted author list. -/
theorem format_article_reference_head (ref : ParsedRef) :
    ∃ r, format_article_reference ref = format_author_list ref.authors false ++ r := by
  simp only [format_article_reference, List.append_assoc]
  exact pyJoin_if_head _ _

/-- A web entry starts with the formatted author list when authors are
present. -/
theorem format_web_reference_head (now : String) (ref : ParsedRef) (h : ref.authors ≠ []) :
    ∃ r, format_web_reference now ref = format_author_list ref.authors false ++ r := by
  simp only [format_web_reference, List.append_assoc, if_pos h]
  exact pyJoin_if_head _ _

/-- A chapter entry starts with the formatted author list. -/
theorem format_chapter_reference_head (ref : ParsedRef) :
    ∃ r, format_chapter_reference ref = format_author_list ref.authors false ++ r := by
  simp only [format_chapter_reference, List.append_assoc]
  exact pyJoin_if_head _ _

/-- A generic entry starts with the formatted author list. -/
theorem format_generic_reference_head (ref : ParsedRef) :
    ∃ r, format_generic_reference ref = format_author_list ref.authors false ++ r := by
  simp only [format_generic_reference, List.append_assoc]
  exact pyJoin_if_head _ _

/-- Every reference entry with a non-empty author list starts with the
formatted author list, whatever the type dispatch selects. -/
theorem generate_reference_head (now : String) (ref : ParsedRef) (h : ref.authors ≠ []) :
    ∃ r, generate_reference now ref = format_author_list ref.authors false ++ r := by
  simp only [generate_reference]
  split_ifs
  · exact format_book_reference_head ref
  · exact format_article_reference_head ref
  · exact format_web_reference_head now ref h
  · exact format_chapter_reference_head ref
  · exact format_generic_reference_head ref

/-- C5: the reference-list author formatting switches between exactly 7
authors (all seven formatted names comma-joined, the last joined by
", & ") and exactly 8 authors (only the first six comma-joined names,
suffixed with " et al."), and `generate_reference` renders this author
segment as the prefix of the entry. -/
theorem C5_theorem (now : String) (ref : ParsedRef) (a1 a2 a3 a4 a5 a6 a7 a8 : String) :
    (ref.authors = [a1, a2, a3, a4, a5, a6, a7] →
      format_author_list ref.authors false
          = format_author_name a1 false ++ ", " ++ format_author_name a2 false ++ ", "
            ++ format_author_name a3 false ++ ", " ++ format_author_name a4 false ++ ", "
            ++ format_author_name a5 false ++ ", " ++ format_author_name a6 false ++ ", & "
            ++ format_author_name a7 false
        ∧ ∃ r, generate_reference now ref
            = format_author_name a1 false ++ ", " ++ format_author_name a2 false ++ ", "
              ++ format_author_name a3 false ++ ", " ++ format_author_name a4 false ++ ", "
              ++ format_author_name a5 false ++ ", " ++ format_author_name a6 false ++ ", & "
              ++ format_author_name a7 false ++ r)
    ∧ (ref.authors = [a1, a2, a3, a4, a5, a6, a7, a8] →
      format_author_list ref.authors false
          = format_author_name a1 false ++ ", " ++ format_author_name a2 false ++ ", "
            ++ format_author_name a3 false ++ ", " ++ format_author_name a4 false ++ ", "
            ++ format_author_name a5 false ++ ", " ++ format_author_name a6 false ++ " et al."
        ∧ ∃ r, generate_reference now ref
            = format_author_name a1 false ++ ", " ++ format_author_name a2 false ++ ", "
              ++ format_author_name a3 false ++ ", " ++ format_author_name a4 false ++ ", "
              ++ format_author_name a5 false ++ ", " ++ format_author_name a6 false ++ " et al." ++ r) := by
  constructor
  · intro h
    have hfal : format_author_list ref.authors false
        = format_author_name a1 false ++ ", " ++ format_author_name a2 false ++ ", "
          ++ format_author_name a3 false ++ ", " ++ format_author_name a4 false ++ ", "
          ++ format_author_name a5 false ++ ", " ++ format_author_name a6 false ++ ", & "
          ++ format_author_name a7 false := by
      rw [h]
      simp [format_author_list, pyJoin, String.append_assoc]
    refine ⟨hfal, ?_⟩
    obtain ⟨r, hr⟩ := generate_reference_head now ref (by rw [h]; simp)
    rw [hfal] at hr
    exact ⟨r, hr⟩
  · intro h
    have hfal : format_author_list ref.authors false
        = format_author_name a1 false ++ ", " ++ format_author_name a2 false ++ ", "
          ++ format_author_name a3 false ++ ", " ++ format_author_name a4 false ++ ", "
          ++ format_author_name a5 false ++ ", " ++ format_author_name a6 false ++ " et al." := by
      rw [h]
      simp [format_author_list, pyJoin, String.append_assoc]
    refine ⟨hfal, ?_⟩
    obtain ⟨r, hr⟩ := generate_reference_head now ref (by rw [h]; simp)
    rw [hfal] at hr
    exact ⟨r, hr⟩

/-- C5 witness at both boundary sizes. -/
theorem C5_witness :
    format_author_list ["Aa, B.", "Cc, D.", "Ee, F.", "Gg, H.", "Ii, J.", "Kk, L.", "Mm, N."] false
      = "Aa, B., Cc, D., Ee, F., Gg, H., Ii, J., Kk, L., & Mm, N."
    ∧ format_author_list ["Aa, B.", "Cc, D.", "Ee, F.", "Gg, H.", "Ii, J.", "Kk, L.", "Mm, N.", "Oo, P."] false
      = "Aa, B., Cc, D., Ee, F., Gg, H., Ii, J., Kk, L. et al." := by
  constructor
  · exact (( C5_theorem "x" ({ authors := ["Aa, B.", "Cc, D.", "Ee, F.", "Gg, H.", "Ii, J.", "Kk, L.", "Mm, N."] } : ParsedRef) "Aa, B." "Cc, D." "Ee, F." "Gg, H." "Ii, J." "Kk, L." "Mm, N." "Oo, P.").1 rfl).1.trans (by decide)
  · exact (( C5_theorem "x" ({ authors := ["Aa, B.", "Cc, D.", "Ee, F.", "Gg, H.", "Ii, J.", "Kk, L.", "Mm, N.", "Oo, P."] } : ParsedRef) "Aa, B." "Cc, D." "Ee, F." "Gg, H." "Ii, J." "Kk, L." "Mm, N." "Oo, P.").2 rfl).1.trans (by decide)

/-- The web formatter ignores the clock whenever the year is truthy or a
retrieved date is supplied. -/
theorem format_web_reference_now_eq (now1 now2 : String) (ref : ParsedRef)
    (h : pyTruthyYear (cYear ref.year) = true ∨ ref.retrieved_date ≠ none) :
    format_web_reference now1 ref = format_web_reference now2 ref := by
  rcases h with hy | hd
  · simp [format_web_reference, hy]
  · obtain ⟨d, hd'⟩ := Option.ne_none_iff_exists'.mp hd
    simp [format_web_reference, hd']

/-- `generate_reference` consults the clock only in the web branch with a
falsy year and no retrieved date. -/
theorem generate_reference_now_eq (now1 now2 : String) (ref : ParsedRef)
    (h : (pyLower ref.type ≠ "web" ∧ pyLower ref.type ≠ "website")
      ∨ pyTruthyYear (cYear ref.year) = true ∨ ref.retrieved_date ≠ none) :
    generate_reference now1 ref = generate_reference now2 ref := by
  simp only [generate_reference]
  split_ifs with h1 h2 h3 h4 <;> try rfl
  rcases h with ⟨hw, hws⟩ | hy
  · rcases h3 with h3 | h3
    · exact absurd h3 hw
    · exact absurd h3 hws
  · exact format_web_reference_now_eq now1 now2 ref hy


/-- A matched year of the `\b(19|20)\d{2}\b` pattern is positive. -/
theorem yearAt_pos (prev : Option Char) (l : List Char) (y : Int) (h : yearAt prev l = some y) :
    0 < y := by
  rcases l with _ | ⟨c1, _ | ⟨c2, _ | ⟨c3, _ | ⟨c4, rest⟩⟩⟩⟩ <;> simp only [yearAt] at h
  · exact Option.noConfusion h
  · exact Option.noConfusion h
  · exact Option.noConfusion h
  · exact Option.noConfusion h
  · split_ifs at h with hc
    · simp only [Bool.and_eq_true] at hc
      obtain ⟨⟨⟨⟨_, horp⟩, _⟩, _⟩, _⟩ := hc
      simp only [Bool.or_eq_true, Bool.and_eq_true, decide_eq_true_eq] at horp
      simp only [Option.some.injEq] at h
      rcases horp with ⟨e1, e2⟩ | ⟨e1, e2⟩
      · subst e1
        subst e2
        have t1 : Char.toNat '1' = 49 := by decide
        have t9 : Char.toNat '9' = 57 := by decide
        omega
      · subst e1
        subst e2
        have t2 : Char.toNat '2' = 50 := by decide
        have t0 : Char.toNat '0' = 48 := by decide
        omega

/-- Every year found by the leftmost scan is positive. -/
theorem findYearAux_pos (l : List Char) : ∀ (prev : Option Char) (y : Int),
    findYearAux prev l = some y → 0 < y := by
  induction l with
  | nil =>
    intro prev y h
    simp only [findYearAux] at h
    exact yearAt_pos _ _ _ h
  | cons c t ih =>
    intro prev y h
    simp only [findYearAux] at h
    cases hya : yearAt prev (c :: t) with
    | some y2 =>
      rw [hya] at h
      have := yearAt_pos _ _ _ hya
      simp only [Option.some.injEq] at h
      omega
    | none =>
      rw [hya] at h
      exact ih (some c) y h

/-- `findYear` only produces positive years. -/
theorem findYear_pos (raw : String) (y : Int) (h : findYear raw = some y) : 0 < y :=
  findYearAux_pos _ none y h

/-- C1 (amended): every engine operation except web-reference formatting
with a falsy year and no retrieved date is a deterministic function of
its inputs; `generate_reference` consults the clock only in that case,
so `parse` followed by `generate_reference` applied twice to the same
raw string yields identical output whenever the parsed record's type is
not "web" or a year was extracted. -/
theorem C1_amended :
    (∀ (now1 now2 : String) (ref : ParsedRef),
      (pyLower ref.type ≠ "web" ∧ pyLower ref.type ≠ "website")
        ∨ pyTruthyYear (cYear ref.year) = true ∨ ref.retrieved_date ≠ none →
      generate_reference now1 ref = generate_reference now2 ref)
    ∧ (∀ (now1 now2 raw : String),
      (parse_reference_text raw).type ≠ "web" ∨ (parse_reference_text raw).year ≠ PyYear.null →
      generate_reference now1 (parse_reference_text raw)
        = generate_reference now2 (parse_reference_text raw)) := by
  refine ⟨fun n1 n2 ref h => generate_reference_now_eq n1 n2 ref h, ?_⟩
  intro n1 n2 raw h
  apply generate_reference_now_eq
  rcases h with ht | hy
  · left
    have htypes : (parse_reference_text raw).type = "article"
        ∨ (parse_reference_text raw).type = "web"
        ∨ (parse_reference_text raw).type = "book" := by
      simp only [parse_reference_text]
      split_ifs <;> simp
    rcases htypes with h1 | h1 | h1
    · rw [h1]
      exact ⟨by decide, by decide⟩
    · exact absurd h1 ht
    · rw [h1]
      exact ⟨by decide, by decide⟩
  · right
    left
    have hy2 : ∃ y, findYear raw = some y ∧ (parse_reference_text raw).year = PyYear.val y := by
      cases hf : findYear raw with
      | none =>
        exfalso
        apply hy
        simp [parse_reference_text, hf]
      | some y => exact ⟨y, rfl, by simp [parse_reference_text, hf]⟩
    obtain ⟨y, hf, hyv⟩ := hy2
    rw [hyv]
    have hpos := findYear_pos raw y hf
    simp only [cYear, pyTruthyYear, bne_iff_ne, decide_eq_true_eq, ne_eq]
    omega

/-- C1 counterexample: parsing a bare URL yields a web record with no
year, and formatting it embeds the clock reading, so two invocations at
different times return different strings for the same raw input. -/
theorem C1_counterexample :
    generate_reference "January 01, 2025" (parse_reference_text "https://example.com")
      ≠ generate_reference "January 02, 2025" (parse_reference_text "https://example.com") := by
  decide

/-- C1 witness: a book record and a parsed year-bearing string format
identically at two different clock readings. -/
theorem C1_witness :
    generate_reference "January 01, 2025" ({ type := "book" } : ParsedRef)
        = generate_reference "January 02, 2025" ({ type := "book" } : ParsedRef)
    ∧ generate_reference "January 01, 2025" (parse_reference_text "x 2020 y")
        = generate_reference "January 02, 2025" (parse_reference_text "x 2020 y") :=
  ⟨C1_amended.1 "January 01, 2025" "January 02, 2025" ({ type := "book" } : ParsedRef)
      (Or.inl ⟨by decide, by decide⟩),
   C1_amended.2 "January 01, 2025" "January 02, 2025" "x 2020 y" (Or.inl (by decide))⟩

/-- C7: `parse_reference_text` is total (it is a Lean function), and
whenever an extraction step fails to match, the corresponding field
keeps its default value: `doi`/`url`/`title`/`source`/`volume`/`issue`/
`pages` stay null, `year` stays the null entry, `authors` stays empty,
`type` stays "book" (when neither the URL step nor the Journal/Review
test fires), and `publisher` is never assigned at all. -/
theorem C7_theorem (raw : String) :
    (findDoi raw = none → (parse_reference_text raw).doi = none)
    ∧ (findUrl raw = none → (parse_reference_text raw).url = none)
    ∧ (findYear raw = none → (parse_reference_text raw).year = PyYear.null)
    ∧ (findAuthors (authorSectionOf raw (findYear raw)) = [] →
        (parse_reference_text raw).authors = [])
    ∧ (titleOf raw (findYear raw) (authorSectionOf raw (findYear raw)) = none →
        (parse_reference_text raw).title = none)
    ∧ ((listContainsSub raw.data "Journal".data || listContainsSub raw.data "Review".data) = false
        ∨ findJournal raw = none → (parse_reference_text raw).source = none)
    ∧ (findVolIssue raw = none →
        (parse_reference_text raw).volume = none ∧ (parse_reference_text raw).issue = none)
    ∧ (findPages raw = none → (parse_reference_text raw).pages = none)
    ∧ (findUrl raw = none →
        (listContainsSub raw.data "Journal".data || listContainsSub raw.data "Review".data) = false →
        (parse_reference_text raw).type = "book")
    ∧ (parse_reference_text raw).publisher = none := by
  refine ⟨?_, ?_, ?_, ?_, ?_, ?_, ?_, ?_, ?_, ?_⟩
  · intro h
    simp [parse_reference_text, h]
  · intro h
    simp [parse_reference_text, h]
  · intro h
    simp [parse_reference_text, h]
  · intro h
    simp [parse_reference_text, h]
  · intro h
    simp [parse_reference_text, h]
  · intro h
    rcases h with h | h
    · simp [parse_reference_text, h]
    · simp [parse_reference_text, h]
  · intro h
    simp [parse_reference_text, h]
  · intro h
    simp [parse_reference_text, h]
  · intro h1 h2
    simp [parse_reference_text, h1, h2]
  · simp [parse_reference_text]

/-- C7 witness: a raw string on which every extraction step fails,
leaving every field at its default. -/
theorem C7_witness :
    (parse_reference_text "zzz").doi = none
    ∧ (parse_reference_text "zzz").url = none
    ∧ (parse_reference_text "zzz").year = PyYear.null
    ∧ (parse_reference_text "zzz").authors = []
    ∧ (parse_reference_text "zzz").title = none
    ∧ (parse_reference_text "zzz").source = none
    ∧ ((parse_reference_text "zzz").volume = none ∧ (parse_reference_text "zzz").issue = none)
    ∧ (parse_reference_text "zzz").pages = none
    ∧ (parse_reference_text "zzz").type = "book"
    ∧ (parse_reference_text "zzz").publisher = none :=
  ⟨( C7_theorem "zzz").1 (by decide),
   ( C7_theorem "zzz").2.1 (by decide),
   ( C7_theorem "zzz").2.2.1 (by decide),
   ( C7_theorem "zzz").2.2.2.1 (by decide),
   ( C7_theorem "zzz").2.2.2.2.1 (by decide),
   ( C7_theorem "zzz").2.2.2.2.2.1 (Or.inl (by decide)),
   ( C7_theorem "zzz").2.2.2.2.2.2.1 (by decide),
   ( C7_theorem "zzz").2.2.2.2.2.2.2.1 (by decide),
   ( C7_theorem "zzz").2.2.2.2.2.2.2.2.1 (by decide) (by decide),
   ( C7_theorem "zzz").2.2.2.2.2.2.2.2.2⟩

/-- A record with a missing, null or empty key is skipped by the dict
comprehension. -/
theorem dictStep_none {α : Type} (keyOf : α → Option String) (m : List (String × α)) (x : α)
    (h : truthyKey (keyOf x) = none) : dictStep keyOf m x = m := by
  simp [dictStep, h]

/-- A record with a truthy key is inserted under that key. -/
theorem dictStep_some {α : Type} (keyOf : α → Option String) (m : List (String × α)) (x : α)
    (k : String) (h : truthyKey (keyOf x) = some k) : dictStep keyOf m x = dictInsert m k x := by
  simp [dictStep, h]

/-- Skipped records do not change the built dict. -/
theorem buildDict_skip {α : Type} (keyOf : α → Option String) (xs ys : List α) (x : α)
    (h : truthyKey (keyOf x) = none) :
    buildDict keyOf (xs ++ x :: ys) = buildDict keyOf (xs ++ ys) := by
  unfold buildDict
  rw [List.foldl_append, List.foldl_append, List.foldl_cons, dictStep_none keyOf _ x h]

/-- The keys of the association-list dict, in insertion order. -/
def dictKeys {α : Type} (m : List (String × α)) : List String := m.map Prod.fst

/-- The membership probe of `dictInsert` matches key membership. -/
theorem any_keys_iff {α : Type} (m : List (String × α)) (k : String) :
    m.any (fun p => p.1 == k) = true ↔ k ∈ dictKeys m := by
  simp [dictKeys, List.any_eq_true, List.mem_map, beq_iff_eq]

/-- Inserting keeps the key list unchanged when the key is present and
appends it otherwise. -/
theorem dictKeys_dictInsert {α : Type} (m : List (String × α)) (k : String) (v : α) :
    dictKeys (dictInsert m k v)
      = if m.any (fun p => p.1 == k) then dictKeys m else dictKeys m ++ [k] := by
  unfold dictInsert
  split_ifs with h
  · simp only [dictKeys, List.map_map]
    apply List.map_congr_left
    intro p _
    by_cases hpk : (p.1 == k) = true
    · simp [Function.comp, hpk, (beq_iff_eq.mp hpk).symm]
    · simp [Function.comp, hpk]
  · simp [dictKeys]

/-- The inserted key is in the key list. -/
theorem mem_dictKeys_dictInsert_self {α : Type} (m : List (String × α)) (k : String) (v : α) :
    k ∈ dictKeys (dictInsert m k v) := by
  rw [dictKeys_dictInsert]
  split_ifs with h
  · exact (any_keys_iff m k).mp h
  · simp

/-- Insertion preserves key membership. -/
theorem mem_dictKeys_dictInsert_mono {α : Type} (m : List (String × α)) (k' : String) (v : α)
    {k : String} (h : k ∈ dictKeys m) : k ∈ dictKeys (dictInsert m k' v) := by
  rw [dictKeys_dictInsert]
  split_ifs
  · exact h
  · simp [h]

/-- Re-assigning the same key keeps only the last value (last write
wins, original position kept). -/
theorem dictInsert_dictInsert_same {α : Type} (m : List (String × α)) (k : String) (v1 v2 : α) :
    dictInsert (dictInsert m k v1) k v2 = dictInsert m k v2 := by
  by_cases h : (m.any fun p => p.1 == k) = true
  · have h2 : ((m.map fun p => if p.1 == k then (k, v1) else p).any fun p => p.1 == k) = true := by
      obtain ⟨p, hp, hpk⟩ := List.any_eq_true.mp h
      exact List.any_eq_true.mpr ⟨(k, v1), List.mem_map.mpr ⟨p, hp, by simp [hpk]⟩, by simp⟩
    unfold dictInsert
    rw [if_pos h, if_pos h2, if_pos h, List.map_map]
    apply List.map_congr_left
    intro p _
    by_cases hpk : (p.1 == k) = true
    · simp [Function.comp, hpk]
    · simp [Function.comp, hpk]
  · have h2 : ((m ++ [(k, v1)]).any fun p => p.1 == k) = true :=
      List.any_eq_true.mpr ⟨(k, v1), by simp, by simp⟩
    have h3 : (m.map fun p => if p.1 == k then (k, v2) else p) = m := by
      refine (List.map_congr_left ?_).trans (List.map_id m)
      intro p hp
      have hpk : ¬ (p.1 == k) = true := fun hk => absurd (List.any_eq_true.mpr ⟨p, hp, hk⟩) h
      simp [hpk]
    unfold dictInsert
    rw [if_neg h, if_pos h2, if_neg h, List.map_append, h3]
    simp

/-- Assignments to distinct keys commute, provided the second key is
already present (so no append-order question arises). -/
theorem dictInsert_comm {α : Type} (m : List (String × α)) (k k' : String) (v2 v' : α)
    (hk : k ∈ dictKeys m) (hne : k' ≠ k) :
    dictInsert (dictInsert m k' v') k v2 = dictInsert (dictInsert m k v2) k' v' := by
  have hanyk : (m.any fun p => p.1 == k) = true := (any_keys_iff m k).mpr hk
  have hkeysk : dictKeys (m.map fun p => if p.1 == k then (k, v2) else p) = dictKeys m := by
    rw [show (m.map fun p => if p.1 == k then (k, v2) else p) = dictInsert m k v2 from by
      unfold dictInsert; rw [if_pos hanyk], dictKeys_dictInsert, if_pos hanyk]
  by_cases h' : (m.any fun p => p.1 == k') = true
  · have hkeys' : dictKeys (m.map fun p => if p.1 == k' then (k', v') else p) = dictKeys m := by
      rw [show (m.map fun p => if p.1 == k' then (k', v') else p) = dictInsert m k' v' from by
        unfold dictInsert; rw [if_pos h'], dictKeys_dictInsert, if_pos h']
    have ha1 : ((m.map fun p => if p.1 == k' then (k', v') else p).any fun p => p.1 == k) = true := by
      rw [any_keys_iff, hkeys']
      exact hk
    have ha2 : ((m.map fun p => if p.1 == k then (k, v2) else p).any fun p => p.1 == k') = true := by
      rw [any_keys_iff, hkeysk, ← any_keys_iff]
      exact h'
    unfold dictInsert
    rw [if_pos h', if_pos ha1, if_pos hanyk, if_pos ha2, List.map_map, List.map_map]
    apply List.map_congr_left
    intro p _
    by_cases hp1 : (p.1 == k') = true
    · have : ¬ (p.1 == k) = true := by
        simp only [beq_iff_eq] at hp1 ⊢
        rw [hp1]
        exact hne
      simp [Function.comp, hp1, this, hne]
    · by_cases hp2 : (p.1 == k) = true
      · have : ¬ ((k, v2).1 == k') = true := by
          simp only [beq_iff_eq]
          exact fun e => hne e.symm
        simp [Function.comp, hp1, hp2, this]
      · simp [Function.comp, hp1, hp2]
  · have ha1 : ((m ++ [(k', v')]).any fun p => p.1 == k) = true := by
      obtain ⟨p, hp, hpk⟩ := List.any_eq_true.mp hanyk
      exact List.any_eq_true.mpr ⟨p, by simp [hp], hpk⟩
    have ha2 : ¬ ((m.map fun p => if p.1 == k then (k, v2) else p).any fun p => p.1 == k') = true := by
      rw [any_keys_iff, hkeysk, ← any_keys_iff]
      exact h'
    unfold dictInsert
    rw [if_neg h', if_pos ha1, if_pos hanyk, if_neg ha2, List.map_append]
    have h4 : ([(k', v')].map fun p => if p.1 == k then (k, v2) else p) = [(k', v')] := by
      simp [hne]
    rw [h4]

/-- A later re-assignment of a key already present in the accumulator
can be moved before a fold over records that never touch that key. -/
theorem foldl_dictStep_insert {α : Type} (keyOf : α → Option String) (mid : List α) :
    ∀ (M : List (String × α)) (k : String) (v2 : α), k ∈ dictKeys M →
    (∀ x ∈ mid, truthyKey (keyOf x) ≠ some k) →
    dictInsert (List.foldl (dictStep keyOf) M mid) k v2
      = List.foldl (dictStep keyOf) (dictInsert M k v2) mid := by
  induction mid with
  | nil => intro M k v2 _ _; rfl
  | cons x t ih =>
    intro M k v2 hk hmid
    simp only [List.foldl_cons]
    cases hx : truthyKey (keyOf x) with
    | none =>
      rw [dictStep_none keyOf M x hx, dictStep_none keyOf (dictInsert M k v2) x hx]
      exact ih M k v2 hk (fun y hy => hmid y (List.mem_cons_of_mem x hy))
    | some k2 =>
      have hne : k2 ≠ k := by
        intro e
        exact (hmid x (List.mem_cons_self x t)) (by rw [hx, e])
      rw [dictStep_some keyOf M x k2 hx, dictStep_some keyOf (dictInsert M k v2) x k2 hx]
      rw [ih (dictInsert M k2 x) k v2 (mem_dictKeys_dictInsert_mono M k2 x hk)
        (fun y hy => hmid y (List.mem_cons_of_mem x hy))]
      rw [dictInsert_comm M k k2 v2 x hk hne]

/-- Two records with the same truthy key and no other occurrence of the
key between them collapse: the dict is unchanged if the second record
replaces the first at the first's position. -/
theorem buildDict_collapse {α : Type} (keyOf : α → Option String) (pre mid post : List α)
    (x1 x2 : α) (k : String)
    (h1 : truthyKey (keyOf x1) = some k) (h2 : truthyKey (keyOf x2) = some k)
    (hmid : ∀ x ∈ mid, truthyKey (keyOf x) ≠ some k) :
    buildDict keyOf (pre ++ x1 :: (mid ++ x2 :: post))
      = buildDict keyOf (pre ++ x2 :: (mid ++ post)) := by
  unfold buildDict
  rw [List.foldl_append, List.foldl_append, List.foldl_cons, List.foldl_cons,
    List.foldl_append, List.foldl_append, List.foldl_cons]
  congr 1
  rw [dictStep_some keyOf _ x1 k h1, dictStep_some keyOf _ x2 k h2, dictStep_some keyOf _ x2 k h2]
  rw [foldl_dictStep_insert keyOf mid (dictInsert (List.foldl (dictStep keyOf) [] pre) k x1) k x2
    (mem_dictKeys_dictInsert_self _ k x1) hmid]
  rw [dictInsert_dictInsert_same]

/-- C10: `validate_coherence` silently drops keyless records: inserting
a citation (resp. reference) whose key is missing/None or the empty
string anywhere in the input leaves the result unchanged, so such a
record appears in none of the three output lists. -/
theorem C10_theorem (cs1 cs2 : List CitationRecord) (c : CitationRecord)
    (rs : List ReferenceRecord) (rs1 rs2 : List ReferenceRecord) (r : ReferenceRecord)
    (cs : List CitationRecord) :
    ((c.citation_key = none ∨ c.citation_key = some "") →
      validate_coherence (cs1 ++ c :: cs2) rs = validate_coherence (cs1 ++ cs2) rs)
    ∧ ((r.ref_key = none ∨ r.ref_key = some "") →
      validate_coherence cs (rs1 ++ r :: rs2) = validate_coherence cs (rs1 ++ rs2)) := by
  constructor
  · intro h
    have ht : truthyKey c.citation_key = none := by
      rcases h with h | h <;> simp [truthyKey, h]
    simp only [validate_coherence]
    rw [buildDict_skip (fun c => c.citation_key) cs1 cs2 c ht]
  · intro h
    have ht : truthyKey r.ref_key = none := by
      rcases h with h | h <;> simp [truthyKey, h]
    simp only [validate_coherence]
    rw [buildDict_skip (fun r => r.ref_key) rs1 rs2 r ht]

/-- C10 witness: dropping a concrete keyless citation record changes
nothing. -/
theorem C10_witness :
    validate_coherence ([] ++ ({ citation_key := none, citation_text := "orphan" } : CitationRecord) :: [{ citation_key := some "k", citation_text := "t" }]) []
      = validate_coherence ([] ++ [({ citation_key := some "k", citation_text := "t" } : CitationRecord)]) [] :=
  (C10_theorem [] [{ citation_key := some "k", citation_text := "t" }]
    { citation_key := none, citation_text := "orphan" } [] [] [] ({} : ReferenceRecord) []).1
    (Or.inl rfl)

/-- C6 (amended): duplicate keys collapse with last-write-wins VALUES
but first-occurrence POSITION: for two records with the same key (and no
other occurrence of that key between them), the result equals the result
on the input where the later record replaces the earlier one at the
earlier one's position. -/
theorem C6_amended (pre mid post : List CitationRecord) (c1 c2 : CitationRecord) (k : String)
    (rs : List ReferenceRecord) (pre2 mid2 post2 : List ReferenceRecord) (r1 r2 : ReferenceRecord)
    (k2 : String) (cs : List CitationRecord) :
    (truthyKey c1.citation_key = some k → truthyKey c2.citation_key = some k →
      (∀ x ∈ mid, truthyKey x.citation_key ≠ some k) →
      validate_coherence (pre ++ c1 :: (mid ++ c2 :: post)) rs
        = validate_coherence (pre ++ c2 :: (mid ++ post)) rs)
    ∧ (truthyKey r1.ref_key = some k2 → truthyKey r2.ref_key = some k2 →
      (∀ x ∈ mid2, truthyKey x.ref_key ≠ some k2) →
      validate_coherence cs (pre2 ++ r1 :: (mid2 ++ r2 :: post2))
        = validate_coherence cs (pre2 ++ r2 :: (mid2 ++ post2))) := by
  constructor
  · intro h1 h2 hmid
    simp only [validate_coherence]
    rw [buildDict_collapse (fun c => c.citation_key) pre mid post c1 c2 k h1 h2 hmid]
  · intro h1 h2 hmid
    simp only [validate_coherence]
    rw [buildDict_collapse (fun r => r.ref_key) pre2 mid2 post2 r1 r2 k2 h1 h2 hmid]

/-- C6 counterexample: removing all but the last occurrence of the
duplicated key changes the result, because the surviving entry keeps the
first occurrence's position in the Python dict, so the orphan lists come
out in a different order. -/
theorem C6_counterexample :
    validate_coherence
        [ { citation_key := some "k", citation_text := "A" }, { citation_key := some "j", citation_text := "B" }, { citation_key := some "k", citation_text := "C" } ] []
      ≠ validate_coherence
        [ { citation_key := some "j", citation_text := "B" }, { citation_key := some "k", citation_text := "C" } ] [] := by
  decide

/-- C6 witness at a concrete three-record input. -/
theorem C6_witness :
    validate_coherence
        ([] ++ ({ citation_key := some "k", citation_text := "A" } : CitationRecord)
          :: ([{ citation_key := some "j", citation_text := "B" }]
            ++ ({ citation_key := some "k", citation_text := "C" } : CitationRecord) :: []))
        []
      = validate_coherence
        ([] ++ ({ citation_key := some "k", citation_text := "C" } : CitationRecord)
          :: ([{ citation_key := some "j", citation_text := "B" }] ++ []))
        [] :=
  (C6_amended [] [{ citation_key := some "j", citation_text := "B" }] []
    { citation_key := some "k", citation_text := "A" }
    { citation_key := some "k", citation_text := "C" } "k" [] [] [] [] ({} : ReferenceRecord)
    ({} : ReferenceRecord) "x" []).1 rfl rfl (by decide)

/-- Insertion preserves distinctness of keys. -/
theorem dictKeys_nodup_dictInsert {α : Type} (m : List (String × α)) (k : String) (v : α)
    (h : (dictKeys m).Nodup) : (dictKeys (dictInsert m k v)).Nodup := by
  rw [dictKeys_dictInsert]
  split_ifs with ha
  · exact h
  · have hk : k ∉ dictKeys m := fun hmem => ha ((any_keys_iff m k).mpr hmem)
    simp [List.nodup_append, h, hk]

/-- The built dict has pairwise-distinct keys. -/
theorem buildDict_keys_nodup {α : Type} (keyOf : α → Option String) (xs : List α) :
    (dictKeys (buildDict keyOf xs)).Nodup := by
  have main : ∀ (m : List (String × α)), (dictKeys m).Nodup →
      (dictKeys (List.foldl (dictStep keyOf) m xs)).Nodup := by
    induction xs with
    | nil => intro m hm; exact hm
    | cons x t ih =>
      intro m hm
      rw [List.foldl_cons]
      apply ih
      cases hx : truthyKey (keyOf x) with
      | none => rw [dictStep_none keyOf m x hx]; exact hm
      | some k2 => rw [dictStep_some keyOf m x k2 hx]; exact dictKeys_nodup_dictInsert m k2 x hm
  exact main [] (by simp [dictKeys])

/-- A successful key search returns an entry with that key. -/
theorem find?_key {α : Type} (m : List (String × α)) (k : String) (p : String × α)
    (h : m.find? (fun q => q.1 == k) = some p) : p.1 = k ∧ p ∈ m := by
  induction m with
  | nil =>
    simp only [List.find?] at h
    exact Option.noConfusion h
  | cons a t ih =>
    simp only [List.find?] at h
    cases ha : (a.1 == k) with
    | true =>
      rw [ha] at h
      simp only [Option.some.injEq] at h
      subst h
      exact ⟨beq_iff_eq.mp ha, List.mem_cons_self a t⟩
    | false =>
      rw [ha] at h
      obtain ⟨h1, h2⟩ := ih h
      exact ⟨h1, List.mem_cons_of_mem a h2⟩

/-- A successful lookup is a member entry. -/
theorem mem_of_dictFind {α : Type} (m : List (String × α)) (k : String) (v : α)
    (h : dictFind m k = some v) : (k, v) ∈ m := by
  unfold dictFind at h
  cases hf : m.find? (fun p => p.1 == k) with
  | none => rw [hf] at h; exact Option.noConfusion h
  | some p =>
    rw [hf] at h
    simp at h
    obtain ⟨hk, hm⟩ := find?_key m k p hf
    have : p = (k, v) := by
      obtain ⟨p1, p2⟩ := p
      simp only [Prod.mk.injEq]
      exact ⟨hk, h⟩
    rw [← this]
    exact hm

/-- With distinct keys, the entry for a key is unique. -/
theorem dict_entry_unique {α : Type} (m : List (String × α))
    (hnodup : (dictKeys m).Nodup) {k : String} {v v' : α}
    (h1 : (k, v) ∈ m) (h2 : (k, v') ∈ m) : v = v' := by
  induction m with
  | nil => cases h1
  | cons p t ih =>
    have hn1 : p.1 ∉ dictKeys t := by
      have := hnodup
      simp only [dictKeys, List.map_cons, List.nodup_cons] at this
      exact this.1
    have hn2 : (dictKeys t).Nodup := by
      have := hnodup
      simp only [dictKeys, List.map_cons, List.nodup_cons] at this
      exact this.2
    rcases List.mem_cons.mp h1 with e1 | m1
    · rcases List.mem_cons.mp h2 with e2 | m2
      · exact congrArg Prod.snd (e1.trans e2.symm)
      · exfalso
        apply hn1
        rw [← e1]
        exact List.mem_map.mpr ⟨(k, v'), m2, rfl⟩
    · rcases List.mem_cons.mp h2 with e2 | m2
      · exfalso
        apply hn1
        rw [← e2]
        exact List.mem_map.mpr ⟨(k, v), m1, rfl⟩
      · exact ih hn2 m1 m2

/-- A failed lookup means no entry has that key. -/
theorem dictFind_none_iff {α : Type} (m : List (String × α)) (k : String) :
    dictFind m k = none ↔ ∀ p ∈ m, p.1 ≠ k := by
  unfold dictFind
  constructor
  · intro h p hp
    cases hf : m.find? (fun p => p.1 == k) with
    | some q => rw [hf] at h; exact Option.noConfusion h
    | none =>
      have := List.find?_eq_none.mp hf p hp
      simpa using this
  · intro h
    rw [List.find?_eq_none.mpr (fun p hp => by simpa using h p hp)]
    rfl

/-- C2 (amended): for a key present in both maps, a record appears in
`imperfect_matches` iff the two sides' normalized author sequences
differ or the years differ, where normalization keeps word characters
(letters, digits, underscore — Python `\w`), strips other
non-whitespace characters, lowercases and collapses whitespace; the
emitted record carries both sides' raw authors and years, and a key in
both maps never appears in either orphan list. -/
theorem C2_amended (cs : List CitationRecord) (rs : List ReferenceRecord) (k : String)
    (c : CitationRecord) (r : ReferenceRecord)
    (hc : dictFind (buildDict (fun c => c.citation_key) cs) k = some c)
    (hr : dictFind (buildDict (fun r => r.ref_key) rs) k = some r) :
    (((validate_coherence cs rs).imperfect_matches.any (fun m => m.citation_key == k)) = true
      ↔ (c.parsed.authors.map normalize_author ≠ r.parsed.authors.map normalize_author
          ∨ c.parsed.year ≠ r.parsed.year))
    ∧ ((c.parsed.authors.map normalize_author ≠ r.parsed.authors.map normalize_author
          ∨ c.parsed.year ≠ r.parsed.year) →
        ({ citation_key := k, ref_key := k, citation_authors := c.parsed.authors,
           reference_authors := r.parsed.authors, citation_year := c.parsed.year,
           reference_year := r.parsed.year,
           issue := "Authors or year mismatch between citation and reference" } : ImperfectMatchFinding)
          ∈ (validate_coherence cs rs).imperfect_matches)
    ∧ (∀ f ∈ (validate_coherence cs rs).citations_without_reference, f.citation_key ≠ k)
    ∧ (∀ f ∈ (validate_coherence cs rs).references_without_citations, f.ref_key ≠ k) := by
  have hnodup : (dictKeys (buildDict (fun c : CitationRecord => c.citation_key) cs)).Nodup :=
    buildDict_keys_nodup _ _
  have hcm : (k, c) ∈ buildDict (fun c : CitationRecord => c.citation_key) cs :=
    mem_of_dictFind _ _ _ hc
  have hmem : (c.parsed.authors.map normalize_author ≠ r.parsed.authors.map normalize_author
      ∨ c.parsed.year ≠ r.parsed.year) →
      ({ citation_key := k, ref_key := k, citation_authors := c.parsed.authors,
         reference_authors := r.parsed.authors, citation_year := c.parsed.year,
         reference_year := r.parsed.year,
         issue := "Authors or year mismatch between citation and reference" } : ImperfectMatchFinding)
        ∈ (validate_coherence cs rs).imperfect_matches := by
    intro hmis
    simp only [validate_coherence]
    refine List.mem_filterMap.mpr ⟨(k, c), hcm, ?_⟩
    dsimp only
    rw [hr]
    dsimp only
    rw [if_pos hmis]
  refine ⟨⟨?_, ?_⟩, hmem, ?_, ?_⟩
  · intro hany
    obtain ⟨f, hf, hfk⟩ := List.any_eq_true.mp hany
    simp only [validate_coherence] at hf
    obtain ⟨p, hpm, hpe⟩ := List.mem_filterMap.mp hf
    by_cases hpk : p.1 = k
    · have hkp2 : (k, p.2) ∈ buildDict (fun c : CitationRecord => c.citation_key) cs := by
        rw [← hpk]
        simpa using hpm
      have hp2 : p.2 = c := dict_entry_unique _ hnodup hkp2 hcm
      rw [hpk, hp2, hr] at hpe
      dsimp only at hpe
      by_cases hmis : c.parsed.authors.map normalize_author ≠ r.parsed.authors.map normalize_author
          ∨ c.parsed.year ≠ r.parsed.year
      · exact hmis
      · rw [if_neg hmis] at hpe
        exact Option.noConfusion hpe
    · exfalso
      cases hfind : dictFind (buildDict (fun r => r.ref_key) rs) p.1 with
      | none =>
        rw [hfind] at hpe
        exact Option.noConfusion hpe
      | some rr =>
        rw [hfind] at hpe
        dsimp only at hpe
        split_ifs at hpe with hmis
        all_goals first
          | exact Option.noConfusion hpe
          | (have hfc : f.citation_key = p.1 := by rw [← Option.some.inj hpe]
             exact hpk (by rw [← hfc]; exact beq_iff_eq.mp hfk))
  · intro hmis
    exact List.any_eq_true.mpr ⟨_, hmem hmis, by simp⟩
  · intro f hf
    simp only [validate_coherence] at hf
    obtain ⟨p, hpm, hpe⟩ := List.mem_filterMap.mp hf
    split_ifs at hpe with hnone
    all_goals first
      | exact Option.noConfusion hpe
      | (have hfc : f.citation_key = p.1 := by rw [← Option.some.inj hpe]
         intro he
         rw [hfc] at he
         rw [he, hr] at hnone
         simp at hnone)
  · intro f hf
    simp only [validate_coherence] at hf
    obtain ⟨p, hpm, hpe⟩ := List.mem_filterMap.mp hf
    split_ifs at hpe with hnone
    all_goals first
      | exact Option.noConfusion hpe
      | (have hfc : f.ref_key = p.1 := by rw [← Option.some.inj hpe]
         intro he
         rw [hfc] at he
         rw [he, hc] at hnone
         simp at hnone)

/-- C2 counterexample: under the claim's own normalization (strip all
non-alphanumeric/non-space characters) the authors "a_b" and "ab"
normalize identically and the years agree, so the claim predicts no
finding — but the code keeps the underscore (`\w`), the normalized
sequences differ, and an imperfect-match record is emitted. -/
theorem C2_counterexample :
    ["a_b"].map spec_normalize_author = ["ab"].map spec_normalize_author
    ∧ (some 2020 : Option Int) = (some 2020 : Option Int)
    ∧ (validate_coherence
        [ { citation_key := some "k", citation_text := "t", parsed := { authors := ["a_b"], year := some 2020 } } ]
        [ { ref_key := some "k", ref_text := "r", parsed := { authors := ["ab"], year := some 2020 } } ]).imperfect_matches ≠ [] := by
  refine ⟨by decide, rfl, by decide⟩

/-- C2 witness: a concrete key in both maps with differing author lists
yields an imperfect-match record. -/
theorem C2_witness :
    ((validate_coherence
        [ { citation_key := some "k", citation_text := "t", parsed := { authors := ["Smith, J."], year := some 2020 } } ]
        [ { ref_key := some "k", ref_text := "r", parsed := { authors := ["Smith, J.", "Jones, M."], year := some 2020 } } ]).imperfect_matches.any
      (fun m => m.citation_key == "k")) = true :=
  ((C2_amended
    [ { citation_key := some "k", citation_text := "t", parsed := { authors := ["Smith, J."], year := some 2020 } } ]
    [ { ref_key := some "k", ref_text := "r", parsed := { authors := ["Smith, J.", "Jones, M."], year := some 2020 } } ]
    "k"
    { citation_key := some "k", citation_text := "t", parsed := { authors := ["Smith, J."], year := some 2020 } }
    { ref_key := some "k", ref_text := "r", parsed := { authors := ["Smith, J.", "Jones, M."], year := some 2020 } }
    (by decide) (by decide)).1).mpr (Or.inl (by decide))
